import Mathlib

/-!
Verification of the sheet vertex-model core of `tyssue` against its
specification.

The development shallowly embeds, over exact rationals:
  * the mesh tables (`vert_df`, `edge_df`, `face_df`) and the model
    settings carried by a `Sheet`;
  * `SheetModel.compute_energy` and `SheetModel.compute_gradient`
    from `tyssue/dynamics/sheet_vertex_model.py`;
  * `SheetModel.dimentionalize` (over the reals, because of the
    `A0 ** 1.5` power), both as a pure function and as a program acting
    on an explicit heap of dictionaries, which captures the `deepcopy`
    aliasing behaviour;
  * the topological operators `cell_division` and `type1_transition`
    (modelled from the spec: `tyssue/topology/sheet_topology.py` is not
    part of the sources, only its tests are), together with a concrete
    model of the `small_hexagonal` fixture;
  * the `History` recording machinery of `tyssue/core/history.py`.

Geometry primitives (`length_grad`, `area_grad`, `height_grad`,
`elastic_energy`, `elastic_force`, the upcast/sum adapter) are external
to the core per the spec; where their output shape matters they are
modelled from the spec's adapter contract and carried as data.
-/

/-- Three-component vector of rationals. The code manipulates `N x 3`
float arrays (`_to_3d` pads 2D data); we model one row. -/
structure V3 where
  x : ℚ
  y : ℚ
  z : ℚ
deriving DecidableEq, Repr

def V3.add (a b : V3) : V3 := ⟨a.x + b.x, a.y + b.y, a.z + b.z⟩

def V3.sub (a b : V3) : V3 := ⟨a.x - b.x, a.y - b.y, a.z - b.z⟩

def V3.smul (c : ℚ) (a : V3) : V3 := ⟨c * a.x, c * a.y, c * a.z⟩

def V3.zero : V3 := ⟨0, 0, 0⟩

instance : Add V3 := ⟨V3.add⟩

instance : Sub V3 := ⟨V3.sub⟩

instance : Zero V3 := ⟨V3.zero⟩

instance : Inhabited V3 := ⟨V3.zero⟩

/-- Sum of a list of 3-vectors (the reduction behind the adapter's
group-by-and-sum primitives). -/
def vsum (l : List V3) : V3 := l.foldr V3.add V3.zero

/-- Row of `sheet.vert_df`: the per-vertex columns the model reads. -/
structure VertRow where
  height : ℚ
  is_active : ℚ
deriving DecidableEq, Repr

instance : Inhabited VertRow := ⟨⟨0, 0⟩⟩

/-- Row of `sheet.edge_df`: the per-half-edge columns the model reads.
The optional anchor columns are carried unconditionally; whether the
table has them is the `Sheet.has_anchor` capability flag (the code
tests `'is_anchor' in sheet.edge_df.columns`). -/
structure EdgeRow where
  srce : ℕ
  trgt : ℕ
  face : ℕ
  length : ℚ
  line_tension : ℚ
  sub_area : ℚ
  is_anchor : ℚ
  anchor_elasticity : ℚ
deriving DecidableEq, Repr

/-- Row of `sheet.face_df`: the per-face columns the model reads. -/
structure FaceRow where
  is_alive : ℚ
  vol : ℚ
  prefered_vol : ℚ
  vol_elasticity : ℚ
  contractility : ℚ
  perimeter : ℚ
deriving DecidableEq, Repr

instance : Inhabited FaceRow := ⟨⟨0, 0, 0, 0, 0, 0⟩⟩

/-- A sheet: the three data tables, the `settings` entries the model
reads, and the outputs of the external geometry primitives.
`grad_lij` is `length_grad(sheet)` (one vector per half-edge),
`grad_a_srce`/`grad_a_trgt` are `area_grad(sheet)` (one vector per
half-edge each), `height_grad` is `height_grad(sheet)` (one vector per
vertex).  These are computed by the geometry module, which the spec
places outside the core; the engine consumes them as data. -/
structure Sheet where
  vert_df : List VertRow
  edge_df : List EdgeRow
  face_df : List FaceRow
  has_anchor : Bool
  grad_norm_factor : ℚ
  nrj_norm_factor : ℚ
  grad_lij : List V3
  grad_a_srce : List V3
  grad_a_trgt : List V3
  height_grad : List V3
deriving Repr

/-- Face referenced by a half-edge (`upcast_face` applied to a whole
row); a dangling face id yields the all-zero row, which the live-face
filters treat as dead. -/
def Sheet.faceOf (s : Sheet) (e : EdgeRow) : FaceRow :=
  s.face_df.getD e.face default

/-- Live faces: `sheet.face_df[sheet.face_df.is_alive == 1]`. -/
def Sheet.liveFaces (s : Sheet) : List FaceRow :=
  s.face_df.filter (fun f => f.is_alive == 1)

/-- Live half-edges: `sheet.edge_df[upcast_alive == 1]` where
`upcast_alive = sheet.upcast_face(sheet.face_df.is_alive)`. -/
def Sheet.liveEdges (s : Sheet) : List EdgeRow :=
  s.edge_df.filter (fun e => (s.faceOf e).is_alive == 1)

/-- Modelled from the spec: `elastic_energy` (from
`dynamics/effectors.py`, not under the sources) evaluates
`0.5 * elasticity * (var - prefered) ** 2` per row; here instantiated
at `var='vol'`, `elasticity='vol_elasticity'`, `prefered='prefered_vol'`
as `compute_energy` calls it. -/
def elastic_energy (faces : List FaceRow) : List ℚ :=
  faces.map (fun f => 1/2 * f.vol_elasticity * (f.vol - f.prefered_vol)^2)

/-- Modelled from the spec: `elastic_force` (from
`dynamics/effectors.py`) is `elasticity * (var - prefered)`, i.e.
`K * (V - V0)` as the code's comment states. -/
def elastic_force (f : FaceRow) : ℚ :=
  f.vol_elasticity * (f.vol - f.prefered_vol)

/-- Tension energies per live half-edge:
`live_edge_df.eval('line_tension * length / 2')`. -/
def Sheet.E_t (s : Sheet) : List ℚ :=
  s.liveEdges.map (fun e => e.line_tension * e.length / 2)

/-- Volume-elasticity energies per live face. -/
def Sheet.E_v (s : Sheet) : List ℚ :=
  elastic_energy s.liveFaces

/-- Contractile energies per live face:
`live_face_df.eval('0.5 * contractility * perimeter ** 2')`. -/
def Sheet.E_c (s : Sheet) : List ℚ :=
  s.liveFaces.map (fun f => 1/2 * f.contractility * f.perimeter^2)

/-- Anchor energies per half-edge (over the whole edge table):
`sheet.edge_df.eval('anchor_elasticity * length**2 * is_anchor / 2')`. -/
def Sheet.E_a (s : Sheet) : List ℚ :=
  s.edge_df.map (fun e => e.anchor_elasticity * e.length^2 * e.is_anchor / 2)

/-- The tuple `energies` built by `compute_energy`: `(E_t, E_v, E_c)`,
extended with `E_a` when the edge table carries the anchor columns. -/
def Sheet.energies (s : Sheet) : List (List ℚ) :=
  if s.has_anchor then [s.E_t, s.E_v, s.E_c, s.E_a]
  else [s.E_t, s.E_v, s.E_c]

/-- `SheetModel.compute_energy` with `full_output=False`:
`sum(E.sum() for E in energies) / nrj_norm_factor`. -/
def compute_energy (s : Sheet) : ℚ :=
  ((s.energies.map List.sum).sum) / s.nrj_norm_factor

/-- `SheetModel.compute_energy` with `full_output=True`: the generator
`(E / nrj_norm_factor for E in energies)`, i.e. each per-element energy
series divided elementwise by the normalisation factor. -/
def compute_energy_full (s : Sheet) : List (List ℚ) :=
  s.energies.map (fun E => E.map (fun x => x / s.nrj_norm_factor))

/-- Rendering of the claim's words for `full_output` mode: one scalar
per energy term — the already-normalised term sum — rather than a
series.  Compared against `compute_energy_full` (scalars are embedded
as singleton series so the two are comparable). -/
def claimedFullOutput (s : Sheet) : List (List ℚ) :=
  s.energies.map (fun E => [E.sum / s.nrj_norm_factor])

/-- Modelled from the spec: `PlanarModel.tension_grad` (in
`planar_vertex_model.py`, not under the sources): per half-edge, the
tension term is the length-gradient times `line_tension`. -/
def tension_grad (s : Sheet) : List V3 :=
  (s.edge_df.zip s.grad_lij).map (fun p => V3.smul p.1.line_tension p.2)

/-- Modelled from the spec: `PlanarModel.contractile_grad`: per
half-edge, the length-gradient times the owning face's `contractility`
(upcast) times the owning face's `perimeter` (upcast). -/
def contractile_grad (s : Sheet) : List V3 :=
  (s.edge_df.zip s.grad_lij).map
    (fun p => V3.smul ((s.faceOf p.1).contractility * (s.faceOf p.1).perimeter) p.2)

/-- Source-side half of `SheetModel.elastic_grad` (from the code):
`kv_v0 * (edge_h * grad_a_srce + area * grad_h)` where
`kv_v0 = elastic_force * is_alive` upcast to edges, `edge_h` is the
source vertex height upcast to edges, `area` the edge `sub_area`, and
`grad_h` the per-vertex height gradient upcast by source. -/
def elastic_grad_srce (s : Sheet) : List V3 :=
  (s.edge_df.zip s.grad_a_srce).map (fun p =>
    V3.smul (elastic_force (s.faceOf p.1) * (s.faceOf p.1).is_alive)
      (V3.add (V3.smul (s.vert_df.getD p.1.srce default).height p.2)
              (V3.smul p.1.sub_area (s.height_grad.getD p.1.srce V3.zero))))

/-- Target-side half of `SheetModel.elastic_grad` (from the code):
`kv_v0 * (edge_h * grad_a_trgt)` — no height-gradient term. -/
def elastic_grad_trgt (s : Sheet) : List V3 :=
  (s.edge_df.zip s.grad_a_trgt).map (fun p =>
    V3.smul (elastic_force (s.faceOf p.1) * (s.faceOf p.1).is_alive)
      (V3.smul (s.vert_df.getD p.1.srce default).height p.2))

/-- `SheetModel.anchor_grad` (from the code):
`grad_lij * _to_3d(anchor_elasticity * length * is_anchor)`. -/
def anchor_grad (s : Sheet) : List V3 :=
  (s.edge_df.zip s.grad_lij).map
    (fun p => V3.smul (p.1.anchor_elasticity * p.1.length * p.1.is_anchor) p.2)

/-- Sum, over the half-edges whose `srce` column is the vertex `v`, of
the corresponding entries of a per-half-edge vector array. -/
def srceSum (s : Sheet) (g : List V3) (v : ℕ) : V3 :=
  vsum (((s.edge_df.zip g).filter (fun p => p.1.srce == v)).map (fun p => p.2))

/-- Sum, over the half-edges whose `trgt` column is the vertex `v`, of
the corresponding entries of a per-half-edge vector array. -/
def trgtSum (s : Sheet) (g : List V3) (v : ℕ) : V3 :=
  vsum (((s.edge_df.zip g).filter (fun p => p.1.trgt == v)).map (fun p => p.2))

/-- Modelled from the spec's adapter contract: `sum_srce` groups a
per-half-edge array by the `srce` column and sums, yielding one vector
per vertex (a vertex with no outgoing half-edge gets the zero vector). -/
def sum_srce (s : Sheet) (g : List V3) : List V3 :=
  (List.range s.vert_df.length).map (srceSum s g)

/-- Modelled from the spec's adapter contract: `sum_trgt`, the `trgt`
counterpart of `sum_srce`. -/
def sum_trgt (s : Sheet) (g : List V3) : List V3 :=
  (List.range s.vert_df.length).map (trgtSum s g)

/-- Elementwise sum of two per-vertex vector arrays. -/
def lvadd (a b : List V3) : List V3 := List.zipWith V3.add a b

/-- Elementwise difference of two per-vertex vector arrays. -/
def lvsub (a b : List V3) : List V3 := List.zipWith V3.sub a b

/-- Elementwise halving of a per-vertex vector array. -/
def lvhalf (a : List V3) : List V3 := a.map (V3.smul (1/2))

/-- The per-vertex aggregation `grad_i` of `compute_gradient` (from the
code): `(sum_srce(grad_t) - sum_trgt(grad_t))/2 + sum_srce(grad_c) -
sum_trgt(grad_c) + sum_srce(grad_v_srce) + sum_trgt(grad_v_trgt)`,
plus `sum_srce(grad_a)` when the edge table carries the anchor
columns. -/
def aggregateGradient (s : Sheet) : List V3 :=
  let base :=
    lvadd
      (lvadd
        (lvadd (lvhalf (lvsub (sum_srce s (tension_grad s)) (sum_trgt s (tension_grad s))))
          (lvsub (sum_srce s (contractile_grad s)) (sum_trgt s (contractile_grad s))))
        (sum_srce s (elastic_grad_srce s)))
      (sum_trgt s (elastic_grad_trgt s))
  if s.has_anchor then lvadd base (sum_srce s (anchor_grad s)) else base

/-- `SheetModel.compute_gradient` with `components=False`:
`grad_i * _to_3d(sheet.vert_df.is_active) / norm_factor`, where the
code reads `norm_factor = sheet.specs['settings']['nrj_norm_factor']`. -/
def compute_gradient (s : Sheet) : List V3 :=
  ((aggregateGradient s).zip s.vert_df).map
    (fun p => V3.smul (p.2.is_active / s.nrj_norm_factor) p.1)

/-- Rendering of the claim's words: the aggregated per-vertex gradient
masked by `is_active` and divided by the `grad_norm_factor` setting. -/
def claimedGradient (s : Sheet) : List V3 :=
  ((aggregateGradient s).zip s.vert_df).map
    (fun p => V3.smul (p.2.is_active / s.grad_norm_factor) p.1)

/-- Rendering of the claim's words for the aggregation: contractile and
anchor terms attributed as sum-as-source plus sum-as-target with no
sign flip (tension and elastic as in the code). -/
def claimedC2Aggregate (s : Sheet) : List V3 :=
  let base :=
    lvadd
      (lvadd
        (lvadd (lvhalf (lvsub (sum_srce s (tension_grad s)) (sum_trgt s (tension_grad s))))
          (lvadd (sum_srce s (contractile_grad s)) (sum_trgt s (contractile_grad s))))
        (sum_srce s (elastic_grad_srce s)))
      (sum_trgt s (elastic_grad_trgt s))
  if s.has_anchor then
    lvadd base (lvadd (sum_srce s (anchor_grad s)) (sum_trgt s (anchor_grad s)))
  else base

/-- C4 counterexample sheet: one live face, two live half-edges each
carrying tension energy 1, `nrj_norm_factor = 1`. -/
def c4sheet : Sheet :=
  { vert_df := [⟨0, 1⟩, ⟨0, 1⟩, ⟨0, 1⟩]
    edge_df := [⟨0, 1, 0, 2, 1, 0, 0, 0⟩, ⟨1, 2, 0, 2, 1, 0, 0, 0⟩]
    face_df := [⟨1, 0, 0, 0, 0, 0⟩]
    has_anchor := false
    grad_norm_factor := 1
    nrj_norm_factor := 1
    grad_lij := []
    grad_a_srce := []
    grad_a_trgt := []
    height_grad := [] }

/-- C1 counterexample sheet: one live edge bearing tension, distinct
`grad_norm_factor = 2` and `nrj_norm_factor = 1`. -/
def c1sheet : Sheet :=
  { vert_df := [⟨0, 1⟩, ⟨0, 1⟩]
    edge_df := [⟨0, 1, 0, 1, 1, 0, 0, 0⟩]
    face_df := [⟨1, 0, 0, 0, 0, 0⟩]
    has_anchor := false
    grad_norm_factor := 2
    nrj_norm_factor := 1
    grad_lij := [⟨1, 0, 0⟩]
    grad_a_srce := [⟨0, 0, 0⟩]
    grad_a_trgt := [⟨0, 0, 0⟩]
    height_grad := [⟨0, 0, 0⟩, ⟨0, 0, 0⟩] }

/-- Witness sheet for C1's amended theorem: vertex 0 is inactive. -/
def c1wsheet : Sheet :=
  { vert_df := [⟨0, 0⟩, ⟨0, 1⟩]
    edge_df := [⟨0, 1, 0, 1, 1, 0, 0, 0⟩]
    face_df := [⟨1, 0, 0, 0, 0, 0⟩]
    has_anchor := false
    grad_norm_factor := 2
    nrj_norm_factor := 1
    grad_lij := [⟨1, 0, 0⟩]
    grad_a_srce := [⟨0, 0, 0⟩]
    grad_a_trgt := [⟨0, 0, 0⟩]
    height_grad := [⟨0, 0, 0⟩, ⟨0, 0, 0⟩] }

/-- C2 counterexample sheet: one live edge whose owning face has
`contractility = perimeter = 1`, so the contractile per-edge
contribution is nonzero and its target-side attribution sign shows. -/
def c2sheet : Sheet :=
  { vert_df := [⟨0, 1⟩, ⟨0, 1⟩]
    edge_df := [⟨0, 1, 0, 1, 0, 0, 0, 0⟩]
    face_df := [⟨1, 0, 0, 0, 1, 1⟩]
    has_anchor := false
    grad_norm_factor := 1
    nrj_norm_factor := 1
    grad_lij := [⟨1, 0, 0⟩]
    grad_a_srce := [⟨0, 0, 0⟩]
    grad_a_trgt := [⟨0, 0, 0⟩]
    height_grad := [⟨0, 0, 0⟩, ⟨0, 0, 0⟩] }

/-- Per-face entries of the dimensionless model spec consumed by
`SheetModel.dimentionalize` (`prefered_vol` is created by the call; the
input field is carried but overwritten). -/
structure FaceSpec where
  vol_elasticity : ℝ
  prefered_area : ℝ
  prefered_height : ℝ
  contractility : ℝ
  prefered_vol : ℝ

structure EdgeSpec where
  line_tension : ℝ
  anchor_elasticity : Option ℝ

structure SettingsSpec where
  grad_norm_factor : ℝ
  nrj_norm_factor : ℝ

structure ModSpecs where
  face : FaceSpec
  edge : EdgeSpec
  settings : SettingsSpec

noncomputable def dimentionalize (m : ModSpecs) : ModSpecs :=
  let Kv := m.face.vol_elasticity
  let A0 := m.face.prefered_area
  let h0 := m.face.prefered_height
  let gamma := m.face.contractility
  let lbda := m.edge.line_tension
  { face := { m.face with
      contractility := gamma * Kv * A0 * h0 ^ 2
      prefered_vol := A0 * h0 }
    edge := { line_tension := lbda * Kv * A0 ^ (1.5 : ℝ) * h0 ^ 2
              anchor_elasticity :=
                m.edge.anchor_elasticity.map (fun ka => ka * Kv * A0 * h0 ^ 2) }
    settings := { grad_norm_factor := Kv * A0 ^ (1.5 : ℝ) * h0 ^ 2
                  nrj_norm_factor := Kv * (A0 * h0) ^ 2 } }

/-- C6 counterexample spec: `Kv = 0`, every other parameter 1. -/
def c6spec : ModSpecs :=
  { face := ⟨0, 1, 1, 1, 0⟩, edge := ⟨1, none⟩, settings := ⟨1, 1⟩ }

/-- Witness spec for the amended C6: all parameters 1. -/
def c6wspec : ModSpecs :=
  { face := ⟨1, 1, 1, 1, 0⟩, edge := ⟨1, none⟩, settings := ⟨1, 1⟩ }

/-- Heap-of-dictionaries model used for the frame property of
`dimentionalize`: a spec value is a triple of addresses of its
`face`/`edge`/`settings` dicts, and `deepcopy` allocates three fresh
addresses.  This captures the aliasing structure a pure functional
embedding would erase. -/
abbrev Dict := List (String × ℝ)

structure SpecRef where
  face : ℕ
  edge : ℕ
  settings : ℕ

structure Heap where
  mem : ℕ → Dict
  next : ℕ

def dictSet (d : Dict) (k : String) (v : ℝ) : Dict :=
  if d.any (fun p => p.1 == k) then
    d.map (fun p => if p.1 == k then (k, v) else p)
  else d ++ [(k, v)]

def dictGet (d : Dict) (k : String) : ℝ :=
  ((d.find? (fun p => p.1 == k)).map Prod.snd).getD 0

def dictHas (d : Dict) (k : String) : Bool :=
  d.any (fun p => p.1 == k)

def heapSet (h : Heap) (a : ℕ) (k : String) (v : ℝ) : Heap :=
  ⟨fun b => if b = a then dictSet (h.mem a) k v else h.mem b, h.next⟩

def deepcopySpec (h : Heap) (r : SpecRef) : Heap × SpecRef :=
  (⟨fun b =>
      if b = h.next + 2 then h.mem r.settings
      else if b = h.next + 1 then h.mem r.edge
      else if b = h.next then h.mem r.face
      else h.mem b,
    h.next + 3⟩,
   ⟨h.next, h.next + 1, h.next + 2⟩)

/-- Address triple of the deep copy allocated by `dimentionalizeH`. -/
def dimRef (h : Heap) : SpecRef := ⟨h.next, h.next + 1, h.next + 2⟩

/-- Heap after `dim_mod_specs = deepcopy(mod_specs)`. -/
def dimH1 (h : Heap) (r : SpecRef) : Heap := (deepcopySpec h r).1

/-- `Kv = dim_mod_specs['face']['vol_elasticity']`. -/
def dimKv (h : Heap) (r : SpecRef) : ℝ :=
  dictGet ((dimH1 h r).mem (dimRef h).face) "vol_elasticity"

/-- `A0 = dim_mod_specs['face']['prefered_area']`. -/
def dimA0 (h : Heap) (r : SpecRef) : ℝ :=
  dictGet ((dimH1 h r).mem (dimRef h).face) "prefered_area"

/-- `h0 = dim_mod_specs['face']['prefered_height']`. -/
def dimh0 (h : Heap) (r : SpecRef) : ℝ :=
  dictGet ((dimH1 h r).mem (dimRef h).face) "prefered_height"

/-- `gamma = dim_mod_specs['face']['contractility']`. -/
def dimGamma (h : Heap) (r : SpecRef) : ℝ :=
  dictGet ((dimH1 h r).mem (dimRef h).face) "contractility"

/-- Heap after the `contractility` write. -/
noncomputable def dimH2 (h : Heap) (r : SpecRef) : Heap :=
  heapSet (dimH1 h r) (dimRef h).face "contractility"
    (dimGamma h r * dimKv h r * dimA0 h r * dimh0 h r ^ 2)

/-- Heap after the `prefered_vol` write. -/
noncomputable def dimH3 (h : Heap) (r : SpecRef) : Heap :=
  heapSet (dimH2 h r) (dimRef h).face "prefered_vol" (dimA0 h r * dimh0 h r)

/-- Heap after the `line_tension` write (`lbda` is read from the edge
dict at that point). -/
noncomputable def dimH4 (h : Heap) (r : SpecRef) : Heap :=
  heapSet (dimH3 h r) (dimRef h).edge "line_tension"
    (dictGet ((dimH3 h r).mem (dimRef h).edge) "line_tension"
      * dimKv h r * dimA0 h r ^ (1.5 : ℝ) * dimh0 h r ^ 2)

/-- Heap after the `grad_norm_factor` write. -/
noncomputable def dimH5 (h : Heap) (r : SpecRef) : Heap :=
  heapSet (dimH4 h r) (dimRef h).settings "grad_norm_factor"
    (dimKv h r * dimA0 h r ^ (1.5 : ℝ) * dimh0 h r ^ 2)

/-- Heap after the `nrj_norm_factor` write. -/
noncomputable def dimH6 (h : Heap) (r : SpecRef) : Heap :=
  heapSet (dimH5 h r) (dimRef h).settings "nrj_norm_factor"
    (dimKv h r * (dimA0 h r * dimh0 h r) ^ 2)

/-- Heap after the conditional `anchor_elasticity` rescaling: performed
exactly when the (copied) edge dict has that key. -/
noncomputable def dimH7 (h : Heap) (r : SpecRef) : Heap :=
  if dictHas ((dimH6 h r).mem (dimRef h).edge) "anchor_elasticity" then
    heapSet (dimH6 h r) (dimRef h).edge "anchor_elasticity"
      (dictGet ((dimH6 h r).mem (dimRef h).edge) "anchor_elasticity"
        * dimKv h r * dimA0 h r * dimh0 h r ^ 2)
  else dimH6 h r

/-- `SheetModel.dimentionalize` as a program over an explicit heap of
dictionaries: it deep-copies the input spec into fresh addresses,
performs all its writes on the copy, and returns the copy's
reference. -/
noncomputable def dimentionalizeH (h : Heap) (r : SpecRef) : Heap × SpecRef :=
  (dimH7 h r, dimRef h)

/-- Witness heap and reference for the C7 frame theorem. -/
def exHeap : Heap := ⟨fun _ => [("line_tension", 1)], 3⟩

/-- Witness reference into `exHeap`. -/
def exRef : SpecRef := ⟨0, 1, 2⟩

structure TEdge where
  srce : ℕ
  trgt : ℕ
  face : ℕ
deriving DecidableEq, Repr

instance : Inhabited TEdge := ⟨⟨0, 0, 0⟩⟩

structure TMesh where
  Nv : ℕ
  edges : List TEdge
  faces : List Bool
deriving DecidableEq, Repr

/-- Boundary half-edges form one closed directed cycle (mesh invariant
(i) of the spec): each edge's target is the next edge's source,
cyclically. -/
def chainOk (es : List TEdge) : Bool :=
  match es with
  | [] => false
  | _ :: _ => (es.zip (es.drop 1 ++ es.take 1)).all (fun p => p.1.trgt == p.2.srce)

/-- Id of the first half-edge opposite to `e` (same vertex pair,
reversed orientation), if any. -/
def findOpp (m : TMesh) (e : TEdge) : Option ℕ :=
  ((m.edges.enum.find? (fun p => p.2.srce == e.trgt && p.2.trgt == e.srce)).map Prod.fst)

/-- Modelled from the spec: `cell_division` lives in
`tyssue/topology/sheet_topology.py`, which is not under the sources
(only its test is).  Per spec 4.5: precondition is a live face with at
least 4 sides whose boundary is one closed cycle; two non-adjacent
boundary edges are split — here the first boundary edge in table order
and the one half way around the cycle, a deterministic choice the spec
leaves open — inserting 2 new vertices and 1 new face, and the boundary
is redistributed into two closed cycles; the opposite half-edges of the
two split edges (in the neighbouring faces) are split as well so that
those faces stay closed, which makes 6 new half-edges in total.  Vertex
positions (the interpolation) belong to the external geometry module
and are not modelled. -/
def cell_division (m : TMesh) (f : ℕ) : Option TMesh :=
  if ¬ m.faces.getD f false then none else
  let bnd := m.edges.enum.filter (fun p => p.2.face == f)
  let n := bnd.length
  if n < 4 then none else
  if ¬ chainOk (bnd.map Prod.snd) then none else
  let i0 := (bnd.getD 0 default).1
  let e0 := (bnd.getD 0 default).2
  let im := (bnd.getD (n / 2) default).1
  let em := (bnd.getD (n / 2) default).2
  match findOpp m e0, findOpp m em with
  | some j0, some jm =>
    let va := m.Nv
    let vb := m.Nv + 1
    let nf := m.faces.length
    let midIds := ((bnd.drop 1).take (n / 2 - 1)).map Prod.fst
    let es1 := m.edges.enum.map (fun p =>
      if p.1 == i0 then { p.2 with trgt := va }
      else if p.1 == im then { p.2 with trgt := vb, face := nf }
      else if midIds.contains p.1 then { p.2 with face := nf }
      else if p.1 == j0 then { p.2 with trgt := va }
      else if p.1 == jm then { p.2 with trgt := vb }
      else p.2)
    let newEdges : List TEdge := [
      ⟨va, e0.trgt, nf⟩,
      ⟨vb, em.trgt, f⟩,
      ⟨va, vb, f⟩,
      ⟨vb, va, nf⟩,
      ⟨va, e0.srce, (m.edges.getD j0 default).face⟩,
      ⟨vb, em.srce, (m.edges.getD jm default).face⟩ ]
    some ⟨m.Nv + 2, es1 ++ newEdges, m.faces ++ [true]⟩
  | _, _ => none

/-- Modelled from the spec: `type1_transition` lives in
`tyssue/topology/sheet_topology.py`, which is not under the sources.
Per spec 4.4: the four half-edges bounding the two adjacent faces near
the target edge are relinked so the two faces exchange one boundary
vertex each; the target half-edge's endpoints are replaced by the
previously non-adjacent diagonal pair and its owning face becomes the
face across the relink (so its recorded face id changes); the
precondition — the target half-edge borders exactly two live faces,
each keeping more than 3 sides after the flip — is validated and
failure refuses the operation. -/
def type1_transition (m : TMesh) (eid : ℕ) : Option TMesh :=
  let e01 := m.edges.getD eid default
  let v0 := e01.srce
  let v1 := e01.trgt
  let B := e01.face
  match m.edges.enum.find? (fun p => p.2.srce == v1 && p.2.trgt == v0) with
  | none => none
  | some q10 =>
    let i10 := q10.1
    let D := q10.2.face
    if ¬ (m.faces.getD B false && m.faces.getD D false) then none else
    let nB := (m.edges.filter (fun e => e.face == B)).length
    let nD := (m.edges.filter (fun e => e.face == D)).length
    if nB ≤ 4 || nD ≤ 4 then none else
    match m.edges.enum.find? (fun p => p.2.face == B && p.2.srce == v1),
          m.edges.enum.find? (fun p => p.2.face == D && p.2.srce == v0) with
    | some qbn, some qdn =>
      let p := qbn.2.trgt
      let r := qdn.2.trgt
      match m.edges.find? (fun e => e.srce == p && e.trgt == v1),
            m.edges.find? (fun e => e.srce == r && e.trgt == v0) with
      | some oA, some oC =>
        let es := m.edges.enum.map (fun q =>
          if q.1 == eid then (⟨p, r, oA.face⟩ : TEdge)
          else if q.1 == i10 then (⟨r, p, oC.face⟩ : TEdge)
          else if q.1 == qbn.1 then { q.2 with srce := v0 }
          else if q.1 == qdn.1 then { q.2 with srce := v1 }
          else q.2)
        some { m with edges := es }
      | _, _ => none
    | _, _ => none

/-- One isolated hexagonal face: face `i` with half-edges
`6i..6i+5` over vertices `6i..6i+5`. -/
def hexFace (i : ℕ) : List TEdge :=
  (List.range 6).map (fun k => ⟨6 * i + k, 6 * i + (k + 1) % 6, i⟩)

/-- Half-edges 72..107 of the fixture: faces 12..15 form a four-face
cluster around the shared edge pair (84, 90), and faces 16/17 are
adjacent hexagons sharing the two edges that the division of face 17
splits. -/
def clusterEdges : List TEdge := [
  ⟨74, 73, 12⟩, ⟨73, 82, 12⟩, ⟨82, 83, 12⟩, ⟨83, 84, 12⟩, ⟨84, 85, 12⟩, ⟨85, 74, 12⟩,
  ⟨78, 72, 13⟩, ⟨72, 86, 13⟩, ⟨86, 87, 13⟩, ⟨87, 88, 13⟩, ⟨88, 89, 13⟩, ⟨89, 78, 13⟩,
  ⟨72, 73, 14⟩, ⟨73, 74, 14⟩, ⟨74, 76, 14⟩, ⟨76, 77, 14⟩, ⟨77, 75, 14⟩, ⟨75, 72, 14⟩,
  ⟨73, 72, 15⟩, ⟨72, 78, 15⟩, ⟨78, 80, 15⟩, ⟨80, 81, 15⟩, ⟨81, 79, 15⟩, ⟨79, 73, 15⟩,
  ⟨91, 90, 16⟩, ⟨90, 96, 16⟩, ⟨96, 94, 16⟩, ⟨94, 93, 16⟩, ⟨93, 97, 16⟩, ⟨97, 91, 16⟩,
  ⟨90, 91, 17⟩, ⟨91, 92, 17⟩, ⟨92, 93, 17⟩, ⟨93, 94, 17⟩, ⟨94, 95, 17⟩, ⟨95, 90, 17⟩ ]

/-- Modelled from the spec: the reference fixture `small_hexagonal.hf5`
is an external dataset that is not available; following the spec's
description we model a small sheet of 18 live hexagonal faces
(98 vertices, 108 half-edges) in which half-edge 84 borders two live
hexagons inside a four-face cluster and face 17 is a live hexagon whose
two split edges have opposite half-edges in face 16 — the features the
spec's concrete scenario exercises. -/
def smallHexagonal : TMesh :=
  ⟨98, (List.range 12).flatMap hexFace ++ clusterEdges, List.replicate 18 true⟩

/-- `_filter_columns` from `tyssue/core/history.py`: when the requested
history columns are not all present in the sheet dataframe it warns
(first component `true`) and keeps the intersection
(`set(cols_hist).intersection(cols_in)`, modelled as a deduplicated
filter — Python's set iteration order is unspecified); otherwise it
returns the requested list unchanged with no warning. -/
def _filter_columns (cols_hist cols_in : List String) : Bool × List String :=
  if cols_hist.all (fun c => cols_in.contains c) then (false, cols_hist)
  else (true, (cols_hist.filter (fun c => cols_in.contains c)).dedup)

/-- Column sets of the sheet a `History` is built over (the `cell`
table is `None` for sheets and its branch is skipped). -/
structure SheetTables where
  coords : List String
  vert_cols : List String
  face_cols : List String
  edge_cols : List String

/-- Column selection performed by `History.__init__` together with
whether any `_filter_columns` call warned. -/
structure HistoryCols where
  warned : Bool
  vcols : List String
  fcols : List String
  ecols : List String

/-- The column-selection part of `History.__init__`: vertex columns are
`sheet.coords + extra_cols['vert']`, face columns `extra_cols['face']`,
edge columns `['srce', 'trgt', 'face'] + extra_cols['edge']`, each
filtered against the sheet's dataframe columns.  A total function: the
constructor never fails on missing columns. -/
def History_init_cols (sheet : SheetTables)
    (extra_vert extra_face extra_edge : List String) : HistoryCols :=
  let v := _filter_columns (sheet.coords ++ extra_vert) sheet.vert_cols
  let f := _filter_columns extra_face sheet.face_cols
  let e := _filter_columns (["srce", "trgt", "face"] ++ extra_edge) sheet.edge_cols
  ⟨v.1 || f.1 || e.1, v.2, f.2, e.2⟩

/-- Row of a history dataset: the recorded `time_id`, the original
element index, and the recorded column values. -/
structure HRow where
  time_id : ℕ
  idx : ℕ
  payload : List ℚ
deriving DecidableEq, Repr

/-- One element table of a `History` instance: the running `time_id`
counter and the accumulated dataset. -/
structure HistState where
  time_id : ℕ
  dset : List HRow
deriving DecidableEq, Repr

/-- `History.__init__` for one element table: the construction-time
snapshot of the sheet rows, all stamped `time_id = 0`. -/
def historyInit (rows : List (ℕ × List ℚ)) : HistState :=
  ⟨0, rows.map (fun r => ⟨0, r.1, r.2⟩)⟩

/-- `History.record` for one element table: increments `time_id` and
appends the current sheet rows stamped with the new `time_id`. -/
def historyRecord (h : HistState) (cur : List (ℕ × List ℚ)) : HistState :=
  ⟨h.time_id + 1, h.dset ++ cur.map (fun r => ⟨h.time_id + 1, r.1, r.2⟩)⟩

/-- History element tables reachable from construction over a sheet
whose table held `rows`, by any sequence of `record` calls (the sheet
rows recorded later are arbitrary, as the sheet mutates externally). -/
inductive ReachableFrom (rows : List (ℕ × List ℚ)) : HistState → Prop where
  | init : ReachableFrom rows (historyInit rows)
  | record (h : HistState) (cur : List (ℕ × List ℚ)) :
      ReachableFrom rows h → ReachableFrom rows (historyRecord h cur)

/-- `_retrieve` from `tyssue/core/history.py`:
`t = times[times <= time_id][-1]` then the rows with that `time_id`;
the out-of-bounds `[-1]` on an empty selection (an `IndexError`) is
modelled as `none`. -/
def _retrieve (dset : List HRow) (time_id : ℕ) : Option (List HRow) :=
  let times := dset.map (fun r => r.time_id)
  match (times.filter (fun t => decide (t ≤ time_id))).getLast? with
  | none => none
  | some t => some (dset.filter (fun r => r.time_id == t))

/-- Summing a list after dividing elementwise is dividing the sum. -/
theorem sum_map_div {α : Type} (l : List α) (f : α → ℚ) (c : ℚ) :
    (l.map (fun x => f x / c)).sum = (l.map f).sum / c := by
  induction l with
  | nil => simp
  | cons a t ih => simp [ih, add_div]

/-- C3: `compute_energy` in default mode is the sum of the tension term
over live half-edges, the volume-elastic and contractile terms over
live faces, and (only when the edge table carries the anchor columns)
the anchor term over all half-edges, the whole divided by
`nrj_norm_factor`; dead faces and their boundary half-edges contribute
nothing to the tension, elastic and contractile terms (the sums below
range over the live entities only). -/
theorem C3_energy_total (s : Sheet) :
    compute_energy s =
      ( ((s.edge_df.filter (fun e => (s.face_df.getD e.face default).is_alive == 1)).map
            (fun e => e.line_tension * e.length / 2)).sum
        + ((s.face_df.filter (fun f => f.is_alive == 1)).map
            (fun f => 1/2 * f.vol_elasticity * (f.vol - f.prefered_vol)^2)).sum
        + ((s.face_df.filter (fun f => f.is_alive == 1)).map
            (fun f => 1/2 * f.contractility * f.perimeter^2)).sum
        + (if s.has_anchor then
            (s.edge_df.map
              (fun e => 1/2 * e.anchor_elasticity * e.length^2 * e.is_anchor)).sum
          else 0) )
      / s.nrj_norm_factor := by
  have ha : (fun e : EdgeRow => 1/2 * e.anchor_elasticity * e.length^2 * e.is_anchor)
      = (fun e : EdgeRow => e.anchor_elasticity * e.length^2 * e.is_anchor / 2) := by
    funext e; ring
  rw [ha]
  unfold compute_energy Sheet.energies
  cases h : s.has_anchor <;>
    simp [Sheet.E_t, Sheet.E_v, Sheet.E_c, Sheet.E_a, Sheet.liveEdges,
      Sheet.liveFaces, Sheet.faceOf, elastic_energy, add_assoc]

/-- C4 counterexample: with two live half-edges the first value yielded
by `full_output` is the two-element series `[1, 1]`, not the scalar
term sum `2` the claim describes. -/
theorem C4_counterexample : compute_energy_full c4sheet ≠ claimedFullOutput c4sheet := by
  norm_num [compute_energy_full, claimedFullOutput, c4sheet, Sheet.energies,
    Sheet.E_t, Sheet.E_v, Sheet.E_c, Sheet.E_a, Sheet.liveEdges, Sheet.liveFaces,
    Sheet.faceOf, elastic_energy, List.filter]

/-- C4 (amended): `full_output` yields one normalised per-element
series per energy term; the sum of each yielded series equals the
corresponding normalised term sum, and these sums total the
default-mode scalar returned by `compute_energy`. -/
theorem C4_full_output_sums (s : Sheet) :
    (compute_energy_full s).map List.sum
        = s.energies.map (fun E => E.sum / s.nrj_norm_factor)
      ∧ ((compute_energy_full s).map List.sum).sum = compute_energy s := by
  have h1 : (compute_energy_full s).map List.sum
      = s.energies.map (fun E => E.sum / s.nrj_norm_factor) := by
    unfold compute_energy_full
    rw [List.map_map]
    refine List.map_congr_left ?_
    intro E _
    simpa using sum_map_div E id s.nrj_norm_factor
  refine ⟨h1, ?_⟩
  rw [h1, compute_energy]
  simpa using sum_map_div s.energies List.sum s.nrj_norm_factor

/-- Adding the zero vector on the right is the identity. -/
theorem V3.add_zeroR (a : V3) : V3.add a V3.zero = a := by
  cases a; simp [V3.add, V3.zero]

/-- Associativity of vector addition. -/
theorem V3.add_assocL (a b c : V3) : V3.add (V3.add a b) c = V3.add a (V3.add b c) := by
  cases a; cases b; cases c; simp [V3.add, add_assoc]

/-- The aggregated gradient has one entry per vertex. -/
theorem aggregateGradient_length (s : Sheet) :
    (aggregateGradient s).length = s.vert_df.length := by
  unfold aggregateGradient lvadd lvsub lvhalf sum_srce sum_trgt
  cases h : s.has_anchor <;> simp

/-- The returned gradient has one entry per vertex. -/
theorem compute_gradient_length (s : Sheet) :
    (compute_gradient s).length = s.vert_df.length := by
  simp [compute_gradient, aggregateGradient_length]

/-- C1 counterexample: the gradient returned by `compute_gradient` is
normalised by `nrj_norm_factor`, not by `grad_norm_factor` as the claim
states; on `c1sheet` (where the two settings differ) the claimed value
disagrees with the computed one. -/
theorem C1_counterexample : compute_gradient c1sheet ≠ claimedGradient c1sheet := by
  norm_num [compute_gradient, claimedGradient, aggregateGradient, c1sheet,
    tension_grad, contractile_grad, elastic_grad_srce, elastic_grad_trgt,
    anchor_grad, sum_srce, sum_trgt, srceSum, trgtSum, lvadd, lvsub, lvhalf,
    vsum, Sheet.faceOf, elastic_force, List.range_succ, List.filter_cons,
    List.filter_nil, V3.add, V3.sub, V3.smul, V3.zero]

/-- C1 (amended): each vertex entry of the returned gradient is the
aggregated per-vertex gradient scaled by that vertex's `is_active`
value and divided by the `nrj_norm_factor` setting; in particular every
inactive vertex receives exactly the zero vector. -/
theorem C1_gradient (s : Sheet) :
    (∀ v, v < s.vert_df.length →
        (compute_gradient s).getD v V3.zero
          = V3.smul ((s.vert_df.getD v default).is_active / s.nrj_norm_factor)
              ((aggregateGradient s).getD v V3.zero))
      ∧ ∀ v, v < s.vert_df.length → (s.vert_df.getD v default).is_active = 0 →
          (compute_gradient s).getD v V3.zero = V3.zero := by
  have key : ∀ v, v < s.vert_df.length →
      (compute_gradient s).getD v V3.zero
        = V3.smul ((s.vert_df.getD v default).is_active / s.nrj_norm_factor)
            ((aggregateGradient s).getD v V3.zero) := by
    intro v hv
    have hlen : v < (compute_gradient s).length := by
      rw [compute_gradient_length]; exact hv
    have hagg : v < (aggregateGradient s).length := by
      rw [aggregateGradient_length]; exact hv
    rw [List.getD_eq_getElem _ _ hlen, List.getD_eq_getElem _ _ hv,
      List.getD_eq_getElem _ _ hagg]
    simp only [compute_gradient, List.getElem_map, List.getElem_zip]
  refine ⟨key, ?_⟩
  intro v hv h0
  rw [key v hv, h0]
  simp [V3.smul, V3.zero]

/-- Witness for C1's amended theorem at `c1wsheet`, whose vertex 0 is
inactive: its gradient entry is the zero vector. -/
theorem C1_gradient_witness : (compute_gradient c1wsheet).getD 0 V3.zero = V3.zero := by
  exact (C1_gradient c1wsheet).2 0 (by decide) (by rfl)

/-- C2 counterexample: the contractile term is aggregated as
sum-as-source minus sum-as-target (a sign flip), not as a plain sum as
the claim states; on `c2sheet` the two disagree at the target vertex. -/
theorem C2_counterexample : aggregateGradient c2sheet ≠ claimedC2Aggregate c2sheet := by
  norm_num [aggregateGradient, claimedC2Aggregate, c2sheet,
    tension_grad, contractile_grad, elastic_grad_srce, elastic_grad_trgt,
    anchor_grad, sum_srce, sum_trgt, srceSum, trgtSum, lvadd, lvsub, lvhalf,
    vsum, Sheet.faceOf, elastic_force, List.range_succ, List.filter_cons,
    List.filter_nil, V3.add, V3.sub, V3.smul, V3.zero]

/-- C2 (amended): per vertex, the default aggregation attributes the
tension term as (sum-as-source minus sum-as-target)/2, the contractile
term as sum-as-source minus sum-as-target (sign flip, no halving), the
elastic source-side and target-side contributions separately onto the
source and target roles, and the anchor term (when the anchor columns
are present) as sum-as-source only. -/
theorem C2_aggregation (s : Sheet) :
    aggregateGradient s = (List.range s.vert_df.length).map (fun v =>
      V3.add
        (V3.add
          (V3.add
            (V3.smul (1/2)
              (V3.sub (srceSum s (tension_grad s) v) (trgtSum s (tension_grad s) v)))
            (V3.sub (srceSum s (contractile_grad s) v) (trgtSum s (contractile_grad s) v)))
          (srceSum s (elastic_grad_srce s) v))
        (V3.add (trgtSum s (elastic_grad_trgt s) v)
          (if s.has_anchor then srceSum s (anchor_grad s) v else V3.zero))) := by
  unfold aggregateGradient sum_srce sum_trgt lvadd lvsub lvhalf
  cases h : s.has_anchor <;>
    simp only [h, if_true, if_false, Bool.false_eq_true, List.zipWith_map_left,
      List.zipWith_map_right, List.zipWith_same, List.map_map] <;>
    refine List.map_congr_left ?_ <;>
    intro v _ <;>
    simp [Function.comp, V3.add_zeroR, V3.add_assocL]

theorem C5_dimentionalize (m : ModSpecs) :
    (dimentionalize m).face.contractility
        = m.face.contractility * m.face.vol_elasticity * m.face.prefered_area
            * m.face.prefered_height ^ 2
      ∧ (dimentionalize m).face.prefered_vol
        = m.face.prefered_area * m.face.prefered_height
      ∧ (dimentionalize m).edge.line_tension
        = m.edge.line_tension * m.face.vol_elasticity
            * m.face.prefered_area ^ (1.5 : ℝ) * m.face.prefered_height ^ 2
      ∧ (dimentionalize m).settings.grad_norm_factor
        = m.face.vol_elasticity * m.face.prefered_area ^ (1.5 : ℝ)
            * m.face.prefered_height ^ 2
      ∧ (dimentionalize m).settings.nrj_norm_factor
        = m.face.vol_elasticity * (m.face.prefered_area * m.face.prefered_height) ^ 2
      ∧ (dimentionalize m).edge.anchor_elasticity
        = m.edge.anchor_elasticity.map
            (fun ka => ka * m.face.vol_elasticity * m.face.prefered_area
              * m.face.prefered_height ^ 2) :=
  ⟨rfl, rfl, rfl, rfl, rfl, rfl⟩

theorem C6_counterexample :
    (dimentionalize c6spec).settings.grad_norm_factor = 0
      ∧ (dimentionalize c6spec).settings.nrj_norm_factor = 0 := by
  constructor <;> simp [dimentionalize, c6spec]

theorem C6_norm_factors_pos (m : ModSpecs)
    (hK : 0 < m.face.vol_elasticity) (hA : 0 < m.face.prefered_area)
    (hh : 0 < m.face.prefered_height) :
    0 < (dimentionalize m).settings.grad_norm_factor
      ∧ 0 < (dimentionalize m).settings.nrj_norm_factor := by
  have hr : (0 : ℝ) < m.face.prefered_area ^ (1.5 : ℝ) :=
    Real.rpow_pos_of_pos hA _
  constructor <;> simp only [dimentionalize] <;> positivity

theorem C6_norm_factors_pos_witness :
    0 < (dimentionalize c6wspec).settings.grad_norm_factor
      ∧ 0 < (dimentionalize c6wspec).settings.nrj_norm_factor :=
  C6_norm_factors_pos c6wspec (by norm_num [c6wspec]) (by norm_num [c6wspec])
    (by norm_num [c6wspec])

/-- Writing at one address leaves every other address unchanged. -/
theorem heapSet_mem_ne (h : Heap) (ad : ℕ) (k : String) (v : ℝ) (b : ℕ)
    (hb : b ≠ ad) : (heapSet h ad k v).mem b = h.mem b := by
  simp [heapSet, hb]

theorem C7_input_untouched (h : Heap) (r : SpecRef)
    (_hf : r.face < h.next) (_he : r.edge < h.next) (_hs : r.settings < h.next) :
    (∀ a, a < h.next → ((dimentionalizeH h r).1).mem a = h.mem a)
      ∧ (dimentionalizeH h r).2 = ⟨h.next, h.next + 1, h.next + 2⟩ := by
  constructor
  · intro a ha
    have n0 : a ≠ h.next := by omega
    have n1 : a ≠ h.next + 1 := by omega
    have n2 : a ≠ h.next + 2 := by omega
    have m7 : (dimH7 h r).mem a = (dimH6 h r).mem a := by
      unfold dimH7
      split
      · exact heapSet_mem_ne _ _ _ _ _ n1
      · rfl
    have m6 : (dimH6 h r).mem a = (dimH5 h r).mem a :=
      heapSet_mem_ne _ _ _ _ _ n2
    have m5 : (dimH5 h r).mem a = (dimH4 h r).mem a :=
      heapSet_mem_ne _ _ _ _ _ n2
    have m4 : (dimH4 h r).mem a = (dimH3 h r).mem a :=
      heapSet_mem_ne _ _ _ _ _ n1
    have m3 : (dimH3 h r).mem a = (dimH2 h r).mem a :=
      heapSet_mem_ne _ _ _ _ _ n0
    have m2 : (dimH2 h r).mem a = (dimH1 h r).mem a :=
      heapSet_mem_ne _ _ _ _ _ n0
    have m1 : (dimH1 h r).mem a = h.mem a := by
      simp [dimH1, deepcopySpec, n0, n1, n2]
    calc (dimentionalizeH h r).1.mem a
        = (dimH6 h r).mem a := m7
      _ = (dimH5 h r).mem a := m6
      _ = (dimH4 h r).mem a := m5
      _ = (dimH3 h r).mem a := m4
      _ = (dimH2 h r).mem a := m3
      _ = (dimH1 h r).mem a := m2
      _ = h.mem a := m1
  · rfl

/-- Witness for the C7 frame theorem on a concrete heap: address 0 of
the input is untouched by `dimentionalizeH`. -/
theorem C7_input_untouched_witness :
    ((dimentionalizeH exHeap exRef).1).mem 0 = exHeap.mem 0 :=
  (C7_input_untouched exHeap exRef (by decide) (by decide) (by decide)).1 0 (by decide)

/-- C8: on the modelled `small_hexagonal` fixture, dividing face 17
adds exactly 1 face, 2 vertices and 6 half-edges, and flipping
half-edge 84 changes that half-edge's recorded face id from its
pre-flip value. -/
theorem C8_fixture :
    (cell_division smallHexagonal 17).map (fun m => (m.faces.length, m.Nv, m.edges.length))
        = some (smallHexagonal.faces.length + 1, smallHexagonal.Nv + 2,
                smallHexagonal.edges.length + 6)
      ∧ (type1_transition smallHexagonal 84).map
            (fun m => decide ((m.edges.getD 84 default).face
              = (smallHexagonal.edges.getD 84 default).face))
        = some false := by
  decide

/-- C9: `_filter_columns` never fails: when some requested column is
missing it warns and records exactly the intersection of the requested
columns with those present; when every requested column exists the
requested list is kept as-is with no warning.  `History_init_cols` (the
column selection of `History.__init__`, a total function) records
exactly the filtered column lists for the three sheet tables. -/
theorem C9_history_columns (ch ci : List String) (sheet : SheetTables)
    (ev ef ee : List String) :
    (¬ (∀ c ∈ ch, c ∈ ci) →
        (_filter_columns ch ci).1 = true
          ∧ ∀ c, c ∈ (_filter_columns ch ci).2 ↔ (c ∈ ch ∧ c ∈ ci))
      ∧ ((∀ c ∈ ch, c ∈ ci) →
          (_filter_columns ch ci).1 = false ∧ (_filter_columns ch ci).2 = ch)
      ∧ (History_init_cols sheet ev ef ee).vcols
          = (_filter_columns (sheet.coords ++ ev) sheet.vert_cols).2
      ∧ (History_init_cols sheet ev ef ee).fcols
          = (_filter_columns ef sheet.face_cols).2
      ∧ (History_init_cols sheet ev ef ee).ecols
          = (_filter_columns (["srce", "trgt", "face"] ++ ee) sheet.edge_cols).2 := by
  have hcond : (ch.all (fun c => ci.contains c) = true) ↔ (∀ c ∈ ch, c ∈ ci) := by
    simp
  refine ⟨?_, ?_, rfl, rfl, rfl⟩
  · intro hn
    have hb : ¬ (ch.all (fun c => ci.contains c) = true) := fun hx => hn (hcond.mp hx)
    simp only [_filter_columns, if_neg hb]
    refine ⟨by simp, ?_⟩
    intro c
    simp [List.mem_dedup, List.mem_filter]
  · intro hp
    simp only [_filter_columns, if_pos (hcond.mpr hp)]
    simp

/-- Witness for C9 on concrete columns: requesting `["x", "a"]` when
only `"a"` exists warns, and `"a"` is kept (it is in the
intersection). -/
theorem C9_history_columns_witness :
    (_filter_columns ["x", "a"] ["a"]).1 = true
      ∧ ("a" ∈ (_filter_columns ["x", "a"] ["a"]).2
          ↔ ("a" ∈ ["x", "a"] ∧ "a" ∈ ["a"])) := by
  have h := (C9_history_columns ["x", "a"] ["a"] ⟨[], [], [], []⟩ [] [] []).1
    (by simp)
  exact ⟨h.1, h.2 "a"⟩

/-- A constant-valued map is sorted. -/
theorem sortedConstMap {α : Type} (l : List α) (c : ℕ) :
    (l.map (fun _ => c)).Sorted (· ≤ ·) := by
  induction l with
  | nil => simp
  | cons a t ih =>
    rw [List.map_cons, List.sorted_cons]
    refine ⟨?_, ih⟩
    intro b hb
    rcases List.mem_map.mp hb with ⟨x, hx, rfl⟩
    exact le_rfl

/-- Invariant of reachable history tables: the recorded `time_id`
column is nondecreasing in table order, bounded by the running counter,
and (when the construction snapshot was nonempty) contains a
`time_id = 0` row. -/
theorem reachable_inv (rows : List (ℕ × List ℚ)) (h : HistState)
    (hr : ReachableFrom rows h) :
    (h.dset.map (fun r => r.time_id)).Sorted (· ≤ ·)
      ∧ (∀ r ∈ h.dset, r.time_id ≤ h.time_id)
      ∧ (rows ≠ [] → ∃ r ∈ h.dset, r.time_id = 0) := by
  induction hr with
  | init =>
    refine ⟨?_, ?_, ?_⟩
    · simp only [historyInit, List.map_map]
      have hc : ((fun r : HRow => r.time_id) ∘ (fun r : ℕ × List ℚ =>
          (⟨0, r.1, r.2⟩ : HRow))) = fun _ => 0 := rfl
      rw [hc]
      exact sortedConstMap rows 0
    · intro r hrr
      simp [historyInit] at hrr
      obtain ⟨a, b, _, rfl⟩ := hrr
      simp [historyInit]
    · intro hne
      match rows, hne with
      | (a, b) :: t, _ => exact ⟨⟨0, a, b⟩, by simp [historyInit], rfl⟩
  | record h cur _ ih =>
    obtain ⟨hs, hb, hz⟩ := ih
    refine ⟨?_, ?_, ?_⟩
    · simp only [historyRecord, List.map_append, List.map_map]
      rw [List.Sorted, List.pairwise_append]
      have hc : ((fun r : HRow => r.time_id) ∘ (fun r : ℕ × List ℚ =>
          (⟨h.time_id + 1, r.1, r.2⟩ : HRow))) = fun _ => h.time_id + 1 := rfl
      rw [hc]
      refine ⟨hs, sortedConstMap cur (h.time_id + 1), ?_⟩
      intro x hx y hy
      rcases List.mem_map.mp hx with ⟨r, hrr, rfl⟩
      rcases List.mem_map.mp hy with ⟨a, ha, rfl⟩
      have := hb r hrr
      omega
    · intro r hrr
      simp only [historyRecord, List.mem_append] at hrr
      rcases hrr with hrr | hrr
      · have := hb r hrr
        simp only [historyRecord]
        omega
      · rcases List.mem_map.mp hrr with ⟨a, ha, rfl⟩
        simp [historyRecord]
    · intro hne
      obtain ⟨r, hrr, hr0⟩ := hz hne
      exact ⟨r, by simp [historyRecord, hrr], hr0⟩

/-- On a sorted list containing an element at most `i`, the Python
idiom `l[l <= i][-1]` returns the greatest element that is at most
`i`. -/
theorem getLast_filter_sorted (l : List ℕ) (i : ℕ)
    (hs : l.Sorted (· ≤ ·)) (hne : ∃ x ∈ l, x ≤ i) :
    ∃ M, (l.filter (fun t => decide (t ≤ i))).getLast? = some M
      ∧ M ∈ l ∧ M ≤ i ∧ ∀ t ∈ l, t ≤ i → t ≤ M := by
  induction l with
  | nil => exact absurd hne (by simp)
  | cons a tl ih =>
    rw [List.sorted_cons] at hs
    obtain ⟨ha, hstl⟩ := hs
    by_cases hai : a ≤ i
    · by_cases hex : ∃ x ∈ tl, x ≤ i
      · obtain ⟨M, h1, h2, h3, h4⟩ := ih hstl hex
        refine ⟨M, ?_, List.mem_cons_of_mem a h2, h3, ?_⟩
        · rw [List.filter_cons_of_pos (by simpa using hai)]
          cases hfil : tl.filter (fun t => decide (t ≤ i)) with
          | nil => rw [hfil] at h1; simp at h1
          | cons b rest =>
            rw [hfil] at h1
            rw [List.getLast?_cons_cons]
            exact h1
        · intro t ht hti
          rcases List.mem_cons.mp ht with rfl | htl
          · exact le_trans (ha M h2) le_rfl
          · exact h4 t htl hti
      · have hfil : tl.filter (fun t => decide (t ≤ i)) = [] := by
          rw [List.filter_eq_nil_iff]
          intro x hx
          simpa using fun hle => hex ⟨x, hx, hle⟩
        refine ⟨a, ?_, List.mem_cons_self a tl, hai, ?_⟩
        · rw [List.filter_cons_of_pos (by simpa using hai), hfil]
          rfl
        · intro t ht hti
          rcases List.mem_cons.mp ht with rfl | htl
          · exact le_rfl
          · exact absurd ⟨t, htl, hti⟩ hex
    · have hex : ∃ x ∈ tl, x ≤ i := by
        obtain ⟨x, hx, hxi⟩ := hne
        rcases List.mem_cons.mp hx with rfl | hxl
        · exact absurd hxi hai
        · exact ⟨x, hxl, hxi⟩
      obtain ⟨M, h1, h2, h3, h4⟩ := ih hstl hex
      refine ⟨M, ?_, List.mem_cons_of_mem a h2, h3, ?_⟩
      · rw [List.filter_cons_of_neg (by simpa using hai)]
        exact h1
      · intro t ht hti
        rcases List.mem_cons.mp ht with rfl | htl
        · exact absurd hti hai
        · exact h4 t htl hti

/-- C10 (amended): for every `History` table reachable from a
construction whose snapshot was nonempty and every index `i`,
`_retrieve` succeeds and returns exactly the rows whose `time_id`
equals the greatest recorded `time_id` that is at most `i` (the closest
record at or before `i`). -/
theorem C10_retrieve (rows : List (ℕ × List ℚ)) (h : HistState) (i : ℕ)
    (hrows : rows ≠ []) (hr : ReachableFrom rows h) :
    ∃ M, M ∈ h.dset.map (fun r => r.time_id) ∧ M ≤ i
      ∧ (∀ t ∈ h.dset.map (fun r => r.time_id), t ≤ i → t ≤ M)
      ∧ _retrieve h.dset i = some (h.dset.filter (fun r => r.time_id == M)) := by
  obtain ⟨hs, _, hz⟩ := reachable_inv rows h hr
  obtain ⟨r, hrr, hr0⟩ := hz hrows
  have hx : ∃ x ∈ h.dset.map (fun q => q.time_id), x ≤ i :=
    ⟨0, List.mem_map.mpr ⟨r, hrr, hr0⟩, Nat.zero_le i⟩
  obtain ⟨M, h1, h2, h3, h4⟩ := getLast_filter_sorted _ i hs hx
  refine ⟨M, h2, h3, h4, ?_⟩
  simp only [_retrieve, h1]

/-- C10 counterexample: over a sheet whose table is empty at
construction, the time-0 snapshot has no rows, and `retrieve(0)` raises
an `IndexError` (modelled `none`) instead of returning the most recent
earlier snapshot. -/
theorem C10_counterexample : _retrieve (historyInit []).dset 0 = none := by
  rfl

/-- Witness for C10 on a concrete one-row history after one `record`
call, queried at index 5. -/
theorem C10_retrieve_witness :
    ∃ M, M ∈ ((historyRecord (historyInit [(0, [])]) [(0, [])]).dset.map
          (fun r => r.time_id)) ∧ M ≤ 5
      ∧ (∀ t ∈ ((historyRecord (historyInit [(0, [])]) [(0, [])]).dset.map
            (fun r => r.time_id)), t ≤ 5 → t ≤ M)
      ∧ _retrieve (historyRecord (historyInit [(0, [])]) [(0, [])]).dset 5
        = some ((historyRecord (historyInit [(0, [])]) [(0, [])]).dset.filter
            (fun r => r.time_id == M)) :=
  C10_retrieve [(0, [])] _ 5 (by simp)
    (ReachableFrom.record _ _ (ReachableFrom.init))
